import Mathlib

/-!
Verification of the protein-interaction analyzer against its specification.

The analysis core (PDB structure model, ligand resolver, heuristic contact
engine, signature comparator, superposition module) lives in `analyzer.py`,
which is not part of the checked-in sources; those components are modelled
here from the specification text.  The frontend (`static/app.js`) is present
and its rendering limits are embedded directly from that source.

Coordinates are modelled as integers in units of 10⁻³ Å — the exact
resolution of the fixed-column PDB coordinate fields — and all distance
comparisons are carried out on squared distances in units of 10⁻⁶ Ų (the
square root is monotone, so every cutoff comparison and every sort order
agrees with the floating-point code).
-/

namespace ProteinAnalyser

/-- Modelled from the spec: a 3-D coordinate (x, y, z in Å); `analyzer.py`
holding the real representation is missing from the sources. -/
structure Vec3 where
  x : ℤ
  y : ℤ
  z : ℤ
deriving DecidableEq, Repr

/-- Squared Euclidean distance between two points. -/
def sqDist (a b : Vec3) : ℤ :=
  (a.x - b.x) * (a.x - b.x) + (a.y - b.y) * (a.y - b.y) + (a.z - b.z) * (a.z - b.z)

/-- Modelled from the spec: one atom of a parsed structure.  The fixed
name/residue classification lookup of the missing heuristic engine is
modelled as precomputed class flags carried by the atom. -/
structure Atom where
  name : String
  isH : Bool
  charged : Bool
  donorAcceptor : Bool
  aromatic : Bool
  nonpolar : Bool
  pos : Vec3
deriving DecidableEq, Repr

/-- Modelled from the spec: residue kind {standard polymer | HETATM | water};
`hetatm` stands for a non-water HETATM residue. -/
inductive ResKind
  | standard
  | hetatm
  | water
deriving DecidableEq, Repr

/-- Modelled from the spec: a residue (3-letter name, sequence number,
chain id, kind, ordered atom list); `analyzer.py` is missing. -/
structure Residue where
  name : String
  seq : Int
  chain : String
  kind : ResKind
  atoms : List Atom
deriving DecidableEq, Repr

/-- Modelled from the spec: a parsed structure, kept as its residues in
file order (the chain decomposition is recoverable from the chain field). -/
structure PdbStructure where
  residues : List Residue
deriving DecidableEq, Repr

/-- Modelled from the spec: a ligand selection, recorded as the residue
indices (file order) assigned to the ligand and to the receptor. -/
structure LigandSelection where
  pdb : PdbStructure
  ligandRes : List ℕ
  receptorRes : List ℕ
deriving DecidableEq, Repr

/-- One selected atom together with the residue metadata an Interaction
records. -/
structure SelAtom where
  chain : String
  resname : String
  resseq : Int
  atom : Atom
deriving DecidableEq, Repr

/-- Atoms of the residues at the given indices, flattened in file order. -/
def resAtoms (s : PdbStructure) (idxs : List ℕ) : List SelAtom :=
  idxs.flatMap fun i =>
    match s.residues.get? i with
    | some r => r.atoms.map fun a => ⟨r.chain, r.name, r.seq, a⟩
    | none => []

/-- Receptor atoms of a selection in file order. -/
def receptorAtoms (sel : LigandSelection) : List SelAtom :=
  resAtoms sel.pdb sel.receptorRes

/-- Ligand atoms of a selection in file order. -/
def ligandAtoms (sel : LigandSelection) : List SelAtom :=
  resAtoms sel.pdb sel.ligandRes

/-- Modelled from the spec: the enumerated interaction kinds of the
heuristic engine. -/
inductive InteractionType
  | salt_bridge_like
  | hydrogen_bond_like
  | aromatic_contact
  | hydrophobic_contact
  | close_contact
deriving DecidableEq, Repr

/-- Squared salt-bridge cutoff (4.0 Å, in 10⁻⁶ Ų). -/
def saltCutoffSq : ℤ := 16000000

/-- Squared hydrogen-bond cutoff (3.5 Å, in 10⁻⁶ Ų). -/
def hbondCutoffSq : ℤ := 12250000

/-- Squared aromatic-contact cutoff (5.0 Å, in 10⁻⁶ Ų), the largest
cutoff. -/
def aromaticCutoffSq : ℤ := 25000000

/-- Squared hydrophobic-contact cutoff (4.5 Å, in 10⁻⁶ Ų). -/
def hydrophobicCutoffSq : ℤ := 20250000

/-- Squared close-contact cutoff (4.0 Å, in 10⁻⁶ Ų). -/
def closeCutoffSq : ℤ := 16000000

/-- Modelled from the spec: a directional contact record.  `distSq` is the
squared distance in 10⁻⁶ Ų, the integer model of the recorded
floating-point distance. -/
structure Interaction where
  interaction_type : InteractionType
  receptor_chain : String
  receptor_resname : String
  receptor_resseq : Int
  receptor_atom : String
  ligand_chain : String
  ligand_resname : String
  ligand_resseq : Int
  ligand_atom : String
  distSq : ℤ
deriving DecidableEq, Repr

/-- An interaction annotated with the file-order positions of its receptor
atom and its ligand atom inside the selection, used for tie-breaking. -/
structure RawInteraction where
  rIdx : ℕ
  lIdx : ℕ
  inter : Interaction
deriving DecidableEq, Repr

/-- Modelled from the spec: classification of one (receptor, ligand) atom
pair by the first matching rule of the missing heuristic engine, evaluated
in priority order; hydrogens are excluded from all distance math. -/
def classify (r l : Atom) (d2 : ℤ) : Option InteractionType :=
  if r.isH = true ∨ l.isH = true then none
  else if r.charged = true ∧ l.charged = true ∧ d2 ≤ saltCutoffSq then
    some .salt_bridge_like
  else if r.donorAcceptor = true ∧ l.donorAcceptor = true ∧ d2 ≤ hbondCutoffSq then
    some .hydrogen_bond_like
  else if r.aromatic = true ∧ l.aromatic = true ∧ d2 ≤ aromaticCutoffSq then
    some .aromatic_contact
  else if r.nonpolar = true ∧ l.nonpolar = true ∧ d2 ≤ hydrophobicCutoffSq then
    some .hydrophobic_contact
  else if d2 ≤ closeCutoffSq then
    some .close_contact
  else none

/-- All ordered pairs of two lists, in file order (receptor-major). -/
def pairsOf (xs : List α) (ys : List β) : List (α × β) :=
  xs.flatMap fun a => ys.map fun b => (a, b)

/-- All (receptor atom, ligand atom) pairs of a selection, each side
annotated with its file-order index. -/
def enumPairs (sel : LigandSelection) : List ((ℕ × SelAtom) × ℕ × SelAtom) :=
  pairsOf (receptorAtoms sel).enum (ligandAtoms sel).enum

/-- Builds the interaction record for one indexed atom pair, when the pair
classifies. -/
def classifyPair (p : (ℕ × SelAtom) × ℕ × SelAtom) : Option RawInteraction :=
  let d2 := sqDist p.1.2.atom.pos p.2.2.atom.pos
  (classify p.1.2.atom p.2.2.atom d2).map fun t =>
    { rIdx := p.1.1
      lIdx := p.2.1
      inter :=
        { interaction_type := t
          receptor_chain := p.1.2.chain
          receptor_resname := p.1.2.resname
          receptor_resseq := p.1.2.resseq
          receptor_atom := p.1.2.atom.name
          ligand_chain := p.2.2.chain
          ligand_resname := p.2.2.resname
          ligand_resseq := p.2.2.resseq
          ligand_atom := p.2.2.atom.name
          distSq := d2 } }

/-- The unsorted classified contacts of a selection. -/
def candidatesOf (sel : LigandSelection) : List RawInteraction :=
  (enumPairs sel).filterMap classifyPair

/-- Modelled from the spec: the output order of the missing heuristic
engine — ascending distance, ties broken by receptor then ligand file
order. -/
def rawLe (a b : RawInteraction) : Prop :=
  a.inter.distSq < b.inter.distSq ∨
    (a.inter.distSq = b.inter.distSq ∧
      (a.rIdx < b.rIdx ∨ (a.rIdx = b.rIdx ∧ a.lIdx ≤ b.lIdx)))

instance : DecidableRel rawLe := fun a b => by
  unfold rawLe
  infer_instance

/-- Modelled from the spec: `detect` with the index annotations kept. -/
def detectRaw (sel : LigandSelection) : List RawInteraction :=
  List.insertionSort rawLe (candidatesOf sel)

/-- Modelled from the spec: `detect(selection)` of the missing heuristic
engine — classify every in-range pair and emit the interactions in the
stable output order. -/
def detect (sel : LigandSelection) : List Interaction :=
  (detectRaw sel).map RawInteraction.inter

/-- Modelled from the spec: the derived signature key
{interaction_type, receptor_chain, receptor_resname, receptor_resseq};
the comparator holding it (`analyzer.py`) is missing. -/
structure Signature where
  interaction_type : InteractionType
  receptor_chain : String
  receptor_resname : String
  receptor_resseq : Int
deriving DecidableEq, Repr

/-- Modelled from the spec: `signature(interaction)` — the structure-
independent identity of a contact. -/
def signature (i : Interaction) : Signature :=
  { interaction_type := i.interaction_type
    receptor_chain := i.receptor_chain
    receptor_resname := i.receptor_resname
    receptor_resseq := i.receptor_resseq }

/-- The set of signatures occurring in an interaction list. -/
def sigsOf (l : List Interaction) : Finset Signature :=
  l.toFinset.image signature

/-- Modelled from the spec: the shared/unique signature sets produced by
`compare(listA, listB)` of the missing comparator. -/
structure CompareResult where
  shared : Finset Signature
  only_a : Finset Signature
  only_b : Finset Signature
deriving DecidableEq

/-- Modelled from the spec: `compare(listA, listB)` — pure set operations
over the derived signatures. -/
def compareLists (a b : List Interaction) : CompareResult :=
  { shared := sigsOf a ∩ sigsOf b
    only_a := sigsOf a \ sigsOf b
    only_b := sigsOf b \ sigsOf a }

/-- Modelled from the spec: the representative interaction recorded for a
signature — the first one in the list (lists are in ascending-distance
order, so this is the first by ascending distance). -/
def exampleFor (l : List Interaction) (s : Signature) : Option Interaction :=
  l.find? fun i => signature i == s

/-- Modelled from the spec: the ligand-selection modes of the missing
resolver. -/
inductive LigandMode
  | het (resname : String) (chain : Option String)
  | chain (c : String)
  | auto
deriving DecidableEq, Repr

/-- Non-water HETATM residues of a structure, with their file-order
indices. -/
def hetCandidates (s : PdbStructure) : List (ℕ × Residue) :=
  s.residues.enum.filter fun p => p.2.kind == ResKind.hetatm

/-- One step of the auto-mode ligand pick: a candidate replaces the current
best only when it has strictly more atoms, so ties keep the earlier
residue. -/
def betterCand (b c : ℕ × Residue) : ℕ × Residue :=
  if b.2.atoms.length < c.2.atoms.length then c else b

/-- Modelled from the spec: among the candidates, the residue with the most
atoms, ties broken by first file-order occurrence. -/
def pickBest : List (ℕ × Residue) → Option (ℕ × Residue)
  | [] => none
  | c :: rest => some (rest.foldl betterCand c)

/-- Residue indices of a structure satisfying a predicate, in file order. -/
def filterIdx (s : PdbStructure) (p : Residue → Bool) : List ℕ :=
  (s.residues.enum.filter fun q => p q.2).map Prod.fst

/-- Modelled from the spec: `resolve(structure, mode, resname?, chain?)` of
the missing ligand resolver; fails with a `SelectionError` message when the
ligand is unresolvable. -/
def resolve (s : PdbStructure) (m : LigandMode) : Except String LigandSelection :=
  match m with
  | .het resname chainOpt =>
    let lig := filterIdx s fun r =>
      r.kind == ResKind.hetatm && r.name == resname &&
        (match chainOpt with
         | none => true
         | some c => r.chain == c)
    if lig.isEmpty then
      Except.error ("SelectionError: no HETATM residue named " ++ resname)
    else
      Except.ok ⟨s, lig, filterIdx s fun r => r.kind == ResKind.standard⟩
  | .chain c =>
    let lig := filterIdx s fun r => r.chain == c
    if lig.isEmpty then
      Except.error ("SelectionError: chain " ++ c ++ " not found")
    else
      Except.ok ⟨s, lig, filterIdx s fun r => r.chain != c⟩
  | .auto =>
    match pickBest (hetCandidates s) with
    | none => Except.error "SelectionError: no non-water HETATM residue"
    | some c => Except.ok ⟨s, [c.1], filterIdx s fun r => r.kind == ResKind.standard⟩

/-- Number of atoms of the residue at a given index (0 when out of
range). -/
def residueAtomCount (s : PdbStructure) (i : ℕ) : ℕ :=
  match s.residues.get? i with
  | some r => r.atoms.length
  | none => 0

/-- Atom identities (residue index, atom index) covered by a residue-index
list. -/
def selAtomIds (s : PdbStructure) (idxs : List ℕ) : Finset (ℕ × ℕ) :=
  idxs.toFinset.biUnion fun i =>
    (Finset.range (residueAtomCount s i)).image fun k => (i, k)

/-- All atom identities of a structure. -/
def allAtomIds (s : PdbStructure) : Finset (ℕ × ℕ) :=
  selAtomIds s (List.range s.residues.length)

/-- A 3×3 matrix given by rows, the rational model of a rotation. -/
structure Mat3 where
  r1 : Vec3
  r2 : Vec3
  r3 : Vec3
deriving DecidableEq, Repr

/-- Dot product. -/
def dotV (a b : Vec3) : ℤ :=
  a.x * b.x + a.y * b.y + a.z * b.z

/-- Matrix-vector product. -/
def mulMatVec (m : Mat3) (v : Vec3) : Vec3 :=
  ⟨dotV m.r1 v, dotV m.r2 v, dotV m.r3 v⟩

/-- Vector addition. -/
def addV (a b : Vec3) : Vec3 :=
  ⟨a.x + b.x, a.y + b.y, a.z + b.z⟩

/-- The rigid transform rotation-then-translation applied to one point. -/
def applyTransform (m : Mat3) (t : Vec3) (v : Vec3) : Vec3 :=
  addV (mulMatVec m v) t

/-- Modelled from the spec: the Kabsch solver of the missing superposition
module, abstracted as any procedure producing a rotation and translation
from the paired shared C-alpha coordinates (its optimality needs real
arithmetic and does not affect the claims). -/
def KabschSolver : Type :=
  List (Vec3 × Vec3) → Mat3 × Vec3

/-- The transform applied to every atom of a structure, producing the
emitted coordinate copy. -/
def transformStructure (m : Mat3) (t : Vec3) (s : PdbStructure) : PdbStructure :=
  ⟨s.residues.map fun r =>
    { r with atoms := r.atoms.map fun a => { a with pos := applyTransform m t a.pos } }⟩

/-- Chain identifiers of a structure in first-occurrence order. -/
def chainIds (s : PdbStructure) : List String :=
  (s.residues.map fun r => r.chain).dedup

/-- The C-alpha atom of a residue, when present. -/
def findCA (r : Residue) : Option Atom :=
  r.atoms.find? fun a => a.name == "CA"

/-- Modelled from the spec: the paired C-alpha coordinates of residues with
matching sequence numbers on one chain of each structure. -/
def sharedCAPairs (sRef sMov : PdbStructure) (cRef cMov : String) : List (Vec3 × Vec3) :=
  (sRef.residues.filter fun r => r.chain == cRef).filterMap fun r1 =>
    (findCA r1).bind fun ca1 =>
      (sMov.residues.find? fun r2 => r2.chain == cMov && r2.seq == r1.seq).bind fun r2 =>
        (findCA r2).map fun ca2 => (ca1.pos, ca2.pos)

/-- Modelled from the spec: the chain pair maximizing the shared C-alpha
count, ties broken by first occurrence. -/
def pickBestChainPair (sRef sMov : PdbStructure) : Option (String × String) :=
  match pairsOf (chainIds sRef) (chainIds sMov) with
  | [] => none
  | p :: rest =>
    some (rest.foldl
      (fun b q =>
        if (sharedCAPairs sRef sMov b.1 b.2).length < (sharedCAPairs sRef sMov q.1 q.2).length
        then q else b) p)

/-- Explicit chain ids when both are given, otherwise the best-scoring
pair. -/
def chosenChainPair (sRef sMov : PdbStructure) :
    Option String → Option String → Option (String × String)
  | some a, some b => some (a, b)
  | _, _ => pickBestChainPair sRef sMov

/-- Modelled from the spec: the alignment outcome record; `rmsdSq` is the
squared RMSD, the rational model of the reported figure. -/
structure AlignmentResult where
  aligned : Bool
  reason : Option String
  reference_chain : Option String
  moving_chain : Option String
  shared_ca_atoms : ℕ
  rmsdSq : Option ℚ
deriving DecidableEq, Repr

/-- Mean squared deviation of the transformed moving C-alpha set from the
reference set. -/
def meanSqDev (m : Mat3) (t : Vec3) (pts : List (Vec3 × Vec3)) : ℚ :=
  ((pts.map fun p => sqDist (applyTransform m t p.2) p.1).sum : ℚ) / (pts.length : ℚ)

/-- Modelled from the spec: `align(structureRef, structureMov, chainRef?,
chainMov?)` of the missing superposition module.  It is a total function —
the model of "fails closed, never raises" — returning the alignment result
and the emitted coordinate copy of the moving structure. -/
def align (solve : KabschSolver) (sRef sMov : PdbStructure)
    (cRef cMov : Option String) : AlignmentResult × PdbStructure :=
  match chosenChainPair sRef sMov cRef cMov with
  | none =>
    ({ aligned := false
       reason := some "insufficient shared backbone atoms"
       reference_chain := none
       moving_chain := none
       shared_ca_atoms := 0
       rmsdSq := none }, sMov)
  | some (c1, c2) =>
    let pts := sharedCAPairs sRef sMov c1 c2
    if pts.length < 3 then
      ({ aligned := false
         reason := some "insufficient shared backbone atoms"
         reference_chain := some c1
         moving_chain := some c2
         shared_ca_atoms := pts.length
         rmsdSq := none }, sMov)
    else
      let mt := solve pts
      ({ aligned := true
         reason := none
         reference_chain := some c1
         moving_chain := some c2
         shared_ca_atoms := pts.length
         rmsdSq := some (meanSqDev mt.1 mt.2 pts) }, transformStructure mt.1 mt.2 sMov)

/-- Modelled from the spec: the outcome of one compare call of the missing
orchestrator. -/
structure CompareOutcome where
  interactions1 : List Interaction
  interactions2 : List Interaction
  shared : Finset Signature
  only1 : Finset Signature
  only2 : Finset Signature
  alignment : Option AlignmentResult
  pdb1 : PdbStructure
  pdb2 : PdbStructure

/-- Modelled from the spec: the "compare two complexes" pipeline of the
missing orchestrator — resolve both ligands, detect both interaction lists
on the original coordinates, compare signatures, and superpose only the
emitted copy of the moving structure when the align flag is set. -/
def compareComplexes (solve : KabschSolver) (s1 s2 : PdbStructure)
    (m1 m2 : LigandMode) (alignFlag : Bool) : Except String CompareOutcome :=
  match resolve s1 m1 with
  | .error e => .error e
  | .ok sel1 =>
    match resolve s2 m2 with
    | .error e => .error e
    | .ok sel2 =>
      let ints1 := detect sel1
      let ints2 := detect sel2
      let cr := compareLists ints1 ints2
      if alignFlag then
        let ar := align solve s1 s2 none none
        .ok { interactions1 := ints1
              interactions2 := ints2
              shared := cr.shared
              only1 := cr.only_a
              only2 := cr.only_b
              alignment := some ar.1
              pdb1 := s1
              pdb2 := ar.2 }
      else
        .ok { interactions1 := ints1
              interactions2 := ints2
              shared := cr.shared
              only1 := cr.only_a
              only2 := cr.only_b
              alignment := none
              pdb1 := s1
              pdb2 := s2 }

/-! Frontend definitions, embedded from `src/static/app.js`. -/

/-- A signature item as received by the frontend compare lists
(`src/static/app.js`). -/
structure SigItem where
  interaction_type : String
  receptor_chain : String
  receptor_resname : String
  receptor_resseq : Int
  signature_key : String
deriving DecidableEq, Repr

/-- JavaScript `Array.prototype.slice(a, b)` on lists (for 0 ≤ a ≤ b). -/
def sliceJs (l : List α) (a b : ℕ) : List α :=
  (l.drop a).take (b - a)

/-- `formatSig` from `src/static/app.js` (line 190): the display string of
one signature item. -/
def formatSig (item : SigItem) : String :=
  item.interaction_type ++ " | " ++ item.receptor_chain ++ ":" ++
    item.receptor_resname ++ toString item.receptor_resseq

/-- `renderInteractionsTable` from `src/static/app.js` (line 74), modelled
as the list of table rows appended to the tbody: for each rendered row its
`dataset.idx`, its backing data, and whether it carries the selected
class. -/
def renderInteractionsTable (rows : List α) (activeIndex : Option ℕ) :
    List (ℕ × α × Bool) :=
  (sliceJs rows 0 500).enum.map fun p => (p.1, p.2, activeIndex == some p.1)

/-- `renderCompareList` from `src/static/app.js` (line 194), modelled as
the list items appended to the list element: the displayed text and the
selected flag; an empty input renders the single empty-text item. -/
def renderCompareList (items : List SigItem) (emptyText : String)
    (selectedKey : Option String) : List (String × Bool) :=
  if items.length = 0 then
    [(emptyText, false)]
  else
    (sliceJs items 0 300).map fun item =>
      (formatSig item,
        match selectedKey with
        | some k => item.signature_key == k
        | none => false)

/-- The retained interaction list of `main` in `src/static/app.js`
(line 738): `data.interactions.slice(0, 500)` kept for highlighting. -/
def mainRetainInteractions (interactions : List α) : List α :=
  sliceJs interactions 0 500

/-! Helper lemmas about the contact engine. -/

theorem classify_le {r l : Atom} {d2 : ℤ} {t : InteractionType}
    (h : classify r l d2 = some t) : d2 ≤ aromaticCutoffSq := by
  unfold classify at h
  unfold saltCutoffSq hbondCutoffSq aromaticCutoffSq hydrophobicCutoffSq closeCutoffSq at *
  split_ifs at h with h1 h2 h3 h4 h5 h6
  · have := h2.2.2; omega
  · have := h3.2.2; omega
  · have := h4.2.2; omega
  · have := h5.2.2; omega
  · have := h6; omega

theorem mem_detect {sel : LigandSelection} {inter : Interaction} :
    inter ∈ detect sel ↔ ∃ raw, raw ∈ candidatesOf sel ∧ raw.inter = inter := by
  simp only [detect, detectRaw, List.mem_map, List.mem_insertionSort]

theorem classifyPair_spec {p : (ℕ × SelAtom) × ℕ × SelAtom} {x : RawInteraction}
    (h : classifyPair p = some x) :
    x.rIdx = p.1.1 ∧ x.lIdx = p.2.1 ∧
    x.inter.distSq = sqDist p.1.2.atom.pos p.2.2.atom.pos ∧
    classify p.1.2.atom p.2.2.atom (sqDist p.1.2.atom.pos p.2.2.atom.pos)
      = some x.inter.interaction_type ∧
    x.inter.receptor_chain = p.1.2.chain ∧ x.inter.receptor_resname = p.1.2.resname ∧
    x.inter.receptor_resseq = p.1.2.resseq ∧ x.inter.receptor_atom = p.1.2.atom.name ∧
    x.inter.ligand_chain = p.2.2.chain ∧ x.inter.ligand_resname = p.2.2.resname ∧
    x.inter.ligand_resseq = p.2.2.resseq ∧ x.inter.ligand_atom = p.2.2.atom.name := by
  simp only [classifyPair, Option.map_eq_some'] at h
  obtain ⟨t, ht, hx⟩ := h
  subst hx
  exact ⟨rfl, rfl, rfl, ht, rfl, rfl, rfl, rfl, rfl, rfl, rfl, rfl⟩

theorem enum_pairwise_fst_lt {α : Type} {l : List α} :
    l.enum.Pairwise fun a b => a.1 < b.1 := by
  have h : List.Pairwise (· < ·) (l.enum.map Prod.fst) := by
    rw [List.enum_map_fst]
    exact List.pairwise_lt_range _
  exact List.pairwise_map.mp h

theorem enum_pairwise_fst_ne {α : Type} {l : List α} :
    l.enum.Pairwise fun a b => a.1 ≠ b.1 :=
  enum_pairwise_fst_lt.imp Nat.ne_of_lt

theorem mem_pairsOf {xs : List α} {ys : List β} {p : α × β} :
    p ∈ pairsOf xs ys ↔ p.1 ∈ xs ∧ p.2 ∈ ys := by
  unfold pairsOf
  rw [List.mem_flatMap]
  constructor
  · rintro ⟨a, ha, hp⟩
    rw [List.mem_map] at hp
    obtain ⟨b, hb, rfl⟩ := hp
    exact ⟨ha, hb⟩
  · rintro ⟨h1, h2⟩
    exact ⟨p.1, h1, List.mem_map.mpr ⟨p.2, h2, rfl⟩⟩

theorem pairsOf_pairwise_ne {xs ys : List (ℕ × SelAtom)}
    (hx : xs.Pairwise fun a b => a.1 ≠ b.1) (hy : ys.Pairwise fun a b => a.1 ≠ b.1) :
    (pairsOf xs ys).Pairwise fun p q => p.1.1 ≠ q.1.1 ∨ p.2.1 ≠ q.2.1 := by
  induction xs with
  | nil => simp [pairsOf]
  | cons x xs ih =>
    rw [List.pairwise_cons] at hx
    unfold pairsOf
    rw [List.flatMap_cons, List.pairwise_append]
    refine ⟨?_, ?_, ?_⟩
    · rw [List.pairwise_map]
      exact hy.imp fun h => Or.inr h
    · simpa [pairsOf] using ih hx.2
    · intro p hp q hq
      rw [List.mem_map] at hp
      obtain ⟨b, hb, rfl⟩ := hp
      have hq2 : q.1 ∈ xs ∧ q.2 ∈ ys := mem_pairsOf.mp (by simpa [pairsOf] using hq)
      exact Or.inl (hx.1 q.1 hq2.1)

theorem candidatesOf_pairwise_ne (sel : LigandSelection) :
    (candidatesOf sel).Pairwise fun a b => a.rIdx ≠ b.rIdx ∨ a.lIdx ≠ b.lIdx := by
  unfold candidatesOf
  refine List.Pairwise.filterMap classifyPair ?_
    (pairsOf_pairwise_ne enum_pairwise_fst_ne enum_pairwise_fst_ne)
  intro p q hpq x hx y hy
  rw [Option.mem_def] at hx hy
  obtain ⟨hx1, hx2, -⟩ := classifyPair_spec hx
  obtain ⟨hy1, hy2, -⟩ := classifyPair_spec hy
  rcases hpq with h | h
  · exact Or.inl (by rw [hx1, hy1]; exact h)
  · exact Or.inr (by rw [hx2, hy2]; exact h)

theorem detectRaw_pairwise_ne (sel : LigandSelection) :
    (detectRaw sel).Pairwise fun a b => a.rIdx ≠ b.rIdx ∨ a.lIdx ≠ b.lIdx := by
  have hsymm : ∀ {a b : RawInteraction},
      (a.rIdx ≠ b.rIdx ∨ a.lIdx ≠ b.lIdx) → b.rIdx ≠ a.rIdx ∨ b.lIdx ≠ a.lIdx :=
    fun h => h.imp Ne.symm Ne.symm
  exact ((List.perm_insertionSort rawLe (candidatesOf sel)).pairwise_iff
    hsymm).mpr (candidatesOf_pairwise_ne sel)

theorem filter_length_le_one {p : α → Bool} {l : List α}
    (h : l.Pairwise fun a b => ¬(p a = true ∧ p b = true)) :
    (l.filter p).length ≤ 1 := by
  induction l with
  | nil => simp
  | cons a l ih =>
    rw [List.pairwise_cons] at h
    by_cases hp : p a = true
    · rw [List.filter_cons_of_pos hp]
      have hnil : l.filter p = [] := by
        rw [List.filter_eq_nil_iff]
        intro b hb hpb
        exact h.1 b hb ⟨hp, hpb⟩
      rw [hnil]
      simp
    · rw [List.filter_cons_of_neg (by simpa using hp)]
      exact ih h.2

instance : IsTotal RawInteraction rawLe :=
  ⟨fun a b => by unfold rawLe; omega⟩

instance : IsTrans RawInteraction rawLe :=
  ⟨fun a b c hab hbc => by unfold rawLe at hab hbc ⊢; omega⟩

/-! Theorems. -/

/-- C1: every interaction emitted by `detect` records exactly the squared
Euclidean distance between its named receptor atom and ligand atom, all
its name fields come from that atom pair, and the distance never exceeds
the largest cutoff (5.0 Å, squared 25000000 in 10⁻⁶ Ų). -/
theorem detect_distance_exact (sel : LigandSelection) :
    ∀ inter ∈ detect sel,
      inter.distSq ≤ aromaticCutoffSq ∧
      ∃ i ra j la, ((i, ra), (j, la)) ∈ enumPairs sel ∧
        inter.distSq = sqDist ra.atom.pos la.atom.pos ∧
        inter.receptor_chain = ra.chain ∧ inter.receptor_resname = ra.resname ∧
        inter.receptor_resseq = ra.resseq ∧ inter.receptor_atom = ra.atom.name ∧
        inter.ligand_chain = la.chain ∧ inter.ligand_resname = la.resname ∧
        inter.ligand_resseq = la.resseq ∧ inter.ligand_atom = la.atom.name := by
  intro inter hmem
  rw [mem_detect] at hmem
  obtain ⟨raw, hraw, hinter⟩ := hmem
  unfold candidatesOf at hraw
  rw [List.mem_filterMap] at hraw
  obtain ⟨p, hp, hcp⟩ := hraw
  obtain ⟨⟨i, ra⟩, j, la⟩ := p
  obtain ⟨-, -, hd, hcl, hf1, hf2, hf3, hf4, hf5, hf6, hf7, hf8⟩ := classifyPair_spec hcp
  subst hinter
  exact ⟨hd ▸ classify_le hcl, i, ra, j, la, hp, hd, hf1, hf2, hf3, hf4, hf5, hf6, hf7, hf8⟩

/-- A receptor serine oxygen at the origin (donor/acceptor class). -/
def wAtomO : Atom := ⟨"O", false, false, true, false, false, ⟨0, 0, 0⟩⟩

/-- A ligand nitrogen 3.0 Å away (donor/acceptor class). -/
def wAtomN : Atom := ⟨"N1", false, false, true, false, false, ⟨3000, 0, 0⟩⟩

/-- A two-residue test structure: one standard receptor residue and one
HETATM ligand residue. -/
def wStruct : PdbStructure :=
  ⟨[⟨"SER", 1, "A", .standard, [wAtomO]⟩, ⟨"LIG", 90, "A", .hetatm, [wAtomN]⟩]⟩

/-- The selection taking the HETATM residue as ligand. -/
def wSel : LigandSelection := ⟨wStruct, [1], [0]⟩

/-- The single interaction detected on the test selection. -/
def wInter : Interaction :=
  ⟨.hydrogen_bond_like, "A", "SER", 1, "O", "A", "LIG", 90, "N1", 9000000⟩

/-- C1 witness: the detected hydrogen bond on the test selection records
the exact squared distance 9000000 (3.0 Å) and respects the largest
cutoff. -/
theorem detect_distance_exact_witness :
    wInter ∈ detect wSel ∧
      (wInter.distSq ≤ aromaticCutoffSq ∧
        ∃ i ra j la, ((i, ra), (j, la)) ∈ enumPairs wSel ∧
          wInter.distSq = sqDist ra.atom.pos la.atom.pos ∧
          wInter.receptor_chain = ra.chain ∧ wInter.receptor_resname = ra.resname ∧
          wInter.receptor_resseq = ra.resseq ∧ wInter.receptor_atom = ra.atom.name ∧
          wInter.ligand_chain = la.chain ∧ wInter.ligand_resname = la.resname ∧
          wInter.ligand_resseq = la.resseq ∧ wInter.ligand_atom = la.atom.name) :=
  ⟨by decide, detect_distance_exact wSel wInter (by decide)⟩

/-- C2: `detect` emits at most one interaction per (receptor, ligand) atom
pair — distinct output entries come from distinct index pairs — and a pair
meeting both the salt-bridge and the hydrogen-bond criteria is classified
as salt_bridge_like, the first matching rule. -/
theorem detect_one_per_pair_priority :
    (∀ sel : LigandSelection,
      (detectRaw sel).Pairwise fun a b => a.rIdx ≠ b.rIdx ∨ a.lIdx ≠ b.lIdx) ∧
    (∀ (sel : LigandSelection) (i j : ℕ),
      ((detectRaw sel).filter fun c => c.rIdx == i && c.lIdx == j).length ≤ 1) ∧
    (∀ (r l : Atom) (d2 : ℤ),
      r.isH = false → l.isH = false →
      r.charged = true → l.charged = true → d2 ≤ saltCutoffSq →
      r.donorAcceptor = true → l.donorAcceptor = true → d2 ≤ hbondCutoffSq →
      classify r l d2 = some InteractionType.salt_bridge_like) := by
  refine ⟨detectRaw_pairwise_ne, ?_, ?_⟩
  · intro sel i j
    apply filter_length_le_one
    refine (detectRaw_pairwise_ne sel).imp ?_
    intro a b hab hconj
    obtain ⟨ha, hb⟩ := hconj
    simp only [Bool.and_eq_true, beq_iff_eq] at ha hb
    rcases hab with h | h
    · exact h (ha.1.trans hb.1.symm)
    · exact h (ha.2.trans hb.2.symm)
  · intro r l d2 h1 h2 h3 h4 h5 h6 h7 h8
    unfold classify
    rw [if_neg (by simp [h1, h2]), if_pos ⟨h3, h4, h5⟩]

/-- A receptor lysine nitrogen, both charged and donor/acceptor class. -/
def wAtomNZ : Atom := ⟨"NZ", false, true, true, false, false, ⟨0, 0, 0⟩⟩

/-- A ligand carboxylate oxygen 3.0 Å away, both charged and
donor/acceptor class. -/
def wAtomO1 : Atom := ⟨"O1", false, true, true, false, false, ⟨3000, 0, 0⟩⟩

/-- C2 witness: a 3.0 Å pair meeting both the salt-bridge and the
hydrogen-bond criteria classifies as salt_bridge_like, and the test
selection holds at most one interaction for its only atom pair. -/
theorem detect_one_per_pair_priority_witness :
    classify wAtomNZ wAtomO1 9000000 = some InteractionType.salt_bridge_like ∧
    ((detectRaw wSel).filter fun c => c.rIdx == 0 && c.lIdx == 0).length ≤ 1 :=
  ⟨detect_one_per_pair_priority.2.2 wAtomNZ wAtomO1 9000000 rfl rfl rfl rfl
      (by decide) rfl rfl (by decide),
    detect_one_per_pair_priority.2.1 wSel 0 0⟩

/-- C3: the sequence returned by `detect` is sorted by ascending distance
with ties broken by receptor then ligand file order; `detect` is the
field projection of that sorted indexed sequence, so each prefix is
uniquely determined by the selection. -/
theorem detect_sorted (sel : LigandSelection) :
    List.Sorted rawLe (detectRaw sel) ∧
    detect sel = (detectRaw sel).map RawInteraction.inter ∧
    (detect sel).Pairwise fun a b => a.distSq ≤ b.distSq := by
  refine ⟨List.sorted_insertionSort rawLe _, rfl, ?_⟩
  rw [detect, List.pairwise_map]
  refine List.Pairwise.imp ?_ (List.sorted_insertionSort rawLe (candidatesOf sel))
  intro a b hab
  unfold rawLe at hab
  omega

/-- C4: for all interaction lists A and B, `compare(A,B).shared` equals
`compare(B,A).shared`, and `compare(A,B).only_a` equals
`compare(B,A).only_b`. -/
theorem compare_symm (A B : List Interaction) :
    (compareLists A B).shared = (compareLists B A).shared ∧
    (compareLists A B).only_a = (compareLists B A).only_b :=
  ⟨Finset.inter_comm _ _, rfl⟩

/-- C5: two interactions have equal signatures exactly when their
{interaction_type, receptor_chain, receptor_resname, receptor_resseq}
tuples are equal — distance and atom identity never participate — and a
signature is shared exactly when each list holds an interaction carrying
it. -/
theorem signature_matching :
    (∀ i j : Interaction, signature i = signature j ↔
      (i.interaction_type = j.interaction_type ∧ i.receptor_chain = j.receptor_chain ∧
        i.receptor_resname = j.receptor_resname ∧ i.receptor_resseq = j.receptor_resseq)) ∧
    (∀ (A B : List Interaction) (s : Signature),
      s ∈ (compareLists A B).shared ↔
        ((∃ i ∈ A, signature i = s) ∧ ∃ j ∈ B, signature j = s)) := by
  constructor
  · intro i j
    simp [signature, Signature.mk.injEq]
  · intro A B s
    simp [compareLists, sigsOf, Finset.mem_inter, Finset.mem_image, List.mem_toFinset]

/-- A hydrogen-bond contact recorded at 2.9 Å via the receptor OG atom. -/
def exInterA : Interaction :=
  ⟨.hydrogen_bond_like, "A", "SER", 12, "OG", "B", "LIG", 1, "N1", 8410000⟩

/-- The same residue and type seen at 3.1 Å via different atoms. -/
def exInterB : Interaction :=
  ⟨.hydrogen_bond_like, "A", "SER", 12, "N", "B", "LIG", 1, "O2", 9610000⟩

/-- C5 witness: a contact at 2.9 Å in list A and one at 3.1 Å in list B to
the same residue and type, via different atoms, count as one shared
signature. -/
theorem signature_matching_witness :
    signature exInterA ∈ (compareLists [exInterA] [exInterB]).shared ∧
      exInterA.distSq ≠ exInterB.distSq ∧
      exInterA.receptor_atom ≠ exInterB.receptor_atom ∧
      exInterA.ligand_atom ≠ exInterB.ligand_atom :=
  ⟨(signature_matching.2 [exInterA] [exInterB] (signature exInterA)).mpr
      ⟨⟨exInterA, by decide, rfl⟩, ⟨exInterB, by decide, by decide⟩⟩,
    by decide, by decide, by decide⟩

/-- Atom count of an auto-mode ligand candidate. -/
def candAtoms (c : ℕ × Residue) : ℕ :=
  c.2.atoms.length

theorem betterCand_eq_or (b c : ℕ × Residue) :
    betterCand b c = b ∨ betterCand b c = c := by
  unfold betterCand
  split_ifs <;> simp

theorem le_betterCand_left (b c : ℕ × Residue) :
    candAtoms b ≤ candAtoms (betterCand b c) := by
  unfold betterCand candAtoms
  split_ifs with h <;> omega

theorem le_betterCand_right (b c : ℕ × Residue) :
    candAtoms c ≤ candAtoms (betterCand b c) := by
  unfold betterCand candAtoms
  split_ifs with h <;> omega

theorem betterCand_pos (b c : ℕ × Residue) (h : candAtoms b < candAtoms c) :
    betterCand b c = c := by
  unfold candAtoms at h
  unfold betterCand
  rw [if_pos h]

theorem betterCand_neg (b c : ℕ × Residue) (h : ¬candAtoms b < candAtoms c) :
    betterCand b c = b := by
  unfold candAtoms at h
  unfold betterCand
  rw [if_neg h]

/-- The auto-mode fold keeps the first candidate attaining the maximal atom
count: the result is a candidate, it dominates every candidate's atom
count, ties prefer the earlier index, and an unbeaten accumulator is
returned unchanged. -/
theorem foldl_betterCand_spec (l : List (ℕ × Residue)) :
    ∀ b : ℕ × Residue, (∀ c ∈ l, b.1 < c.1) → (l.Pairwise fun a c => a.1 < c.1) →
      (l.foldl betterCand b = b ∨ l.foldl betterCand b ∈ l) ∧
      (∀ c ∈ b :: l, candAtoms c ≤ candAtoms (l.foldl betterCand b)) ∧
      (∀ c ∈ b :: l, candAtoms c = candAtoms (l.foldl betterCand b) →
        (l.foldl betterCand b).1 ≤ c.1) ∧
      (candAtoms b = candAtoms (l.foldl betterCand b) → l.foldl betterCand b = b) := by
  induction l with
  | nil =>
    intro b _ _
    refine ⟨Or.inl rfl, ?_, ?_, fun _ => rfl⟩
    · intro c hc
      rw [List.mem_singleton] at hc
      subst hc
      exact le_refl _
    · intro c hc _
      rw [List.mem_singleton] at hc
      subst hc
      exact le_refl _
  | cons x l ih =>
    intro b hb hl
    rw [List.pairwise_cons] at hl
    have hfc : (x :: l).foldl betterCand b = l.foldl betterCand (betterCand b x) :=
      List.foldl_cons l b
    rw [hfc]
    have hb_lt : ∀ c ∈ l, b.1 < c.1 := fun c hc => hb c (List.mem_cons_of_mem x hc)
    have hb2cases := betterCand_eq_or b x
    have hb2_lt : ∀ c ∈ l, (betterCand b x).1 < c.1 := by
      rcases hb2cases with h | h <;> rw [h]
      · exact hb_lt
      · exact hl.1
    obtain ⟨ih1, ih2, ih3, ih4⟩ := ih (betterCand b x) hb2_lt hl.2
    have hb2r : candAtoms (betterCand b x) ≤ candAtoms (l.foldl betterCand (betterCand b x)) :=
      ih2 _ (List.mem_cons_self _ _)
    have hble : candAtoms b ≤ candAtoms (betterCand b x) := le_betterCand_left b x
    have hxle : candAtoms x ≤ candAtoms (betterCand b x) := le_betterCand_right b x
    have h4 : candAtoms b = candAtoms (l.foldl betterCand (betterCand b x)) →
        l.foldl betterCand (betterCand b x) = b := by
      intro heq
      have heq2 : candAtoms (betterCand b x)
          = candAtoms (l.foldl betterCand (betterCand b x)) := by omega
      have hr := ih4 heq2
      by_cases hlt : candAtoms b < candAtoms x
      · exfalso
        have hbx := betterCand_pos b x hlt
        have hcc : candAtoms (betterCand b x) = candAtoms x := by rw [hbx]
        omega
      · rw [hr]
        exact betterCand_neg b x hlt
    refine ⟨?_, ?_, ?_, h4⟩
    · rcases ih1 with h | h
      · rcases hb2cases with h2 | h2
        · exact Or.inl (h.trans h2)
        · exact Or.inr (by rw [h, h2]; exact List.mem_cons_self _ _)
      · exact Or.inr (List.mem_cons_of_mem x h)
    · intro c hc
      rcases List.mem_cons.mp hc with rfl | hc'
      · omega
      rcases List.mem_cons.mp hc' with rfl | hc''
      · omega
      · exact ih2 c (List.mem_cons_of_mem _ hc'')
    · intro c hc heq
      rcases List.mem_cons.mp hc with rfl | hc'
      · rw [h4 heq]
      rcases List.mem_cons.mp hc' with rfl | hc''
      · by_cases hlt : candAtoms b < candAtoms c
        · have hbx := betterCand_pos b c hlt
          have hcc : candAtoms (betterCand b c) = candAtoms c := by rw [hbx]
          have hres := ih3 (betterCand b c) (List.mem_cons_self _ _) (hcc.trans heq)
          exact le_trans hres (le_of_eq (by rw [hbx]))
        · have hbx := betterCand_neg b c hlt
          have hcc : candAtoms (betterCand b c) = candAtoms b := by rw [hbx]
          have hbr := h4 (by omega)
          rw [hbr]
          exact le_of_lt (hb c (List.mem_cons_self _ _))
      · exact ih3 c (List.mem_cons_of_mem _ hc'') heq

theorem hetCandidates_pairwise_lt (s : PdbStructure) :
    (hetCandidates s).Pairwise fun a b => a.1 < b.1 := by
  unfold hetCandidates
  exact List.Pairwise.sublist (List.filter_sublist _) enum_pairwise_fst_lt

/-- `pickBest` returns `none` exactly on an empty candidate list, and
otherwise the first candidate with the maximal atom count. -/
theorem pickBest_spec (s : PdbStructure) :
    (pickBest (hetCandidates s) = none ↔ hetCandidates s = []) ∧
    (∀ c, pickBest (hetCandidates s) = some c →
      c ∈ hetCandidates s ∧
      (∀ d ∈ hetCandidates s, candAtoms d ≤ candAtoms c) ∧
      (∀ d ∈ hetCandidates s, candAtoms d = candAtoms c → c.1 ≤ d.1)) := by
  have hpl := hetCandidates_pairwise_lt s
  cases hh : hetCandidates s with
  | nil => simp [pickBest]
  | cons x rest =>
    rw [hh, List.pairwise_cons] at hpl
    constructor
    · simp [pickBest]
    · intro c hc
      simp only [pickBest, Option.some.injEq] at hc
      obtain ⟨sp1, sp2, sp3, -⟩ := foldl_betterCand_spec rest x hpl.1 hpl.2
      rw [hc] at sp1 sp2 sp3
      refine ⟨?_, ?_, ?_⟩
      · rcases sp1 with h | h
        · rw [h]; exact List.mem_cons_self _ _
        · exact List.mem_cons_of_mem x h
      · intro d hd
        exact sp2 d hd
      · intro d hd
        exact sp3 d hd

/-- C6: auto-mode resolve fails exactly when no non-water HETATM residue
exists, and otherwise selects as ligand the non-water HETATM residue with
the most atoms, ties broken by first file-order occurrence. -/
theorem resolve_auto_spec (s : PdbStructure) :
    ((∃ e, resolve s LigandMode.auto = Except.error e) ↔ hetCandidates s = []) ∧
    (∀ sel, resolve s LigandMode.auto = Except.ok sel →
      sel.pdb = s ∧
      ∃ c, pickBest (hetCandidates s) = some c ∧ sel.ligandRes = [c.1] ∧
        c ∈ hetCandidates s ∧
        (∀ d ∈ hetCandidates s, candAtoms d ≤ candAtoms c) ∧
        (∀ d ∈ hetCandidates s, candAtoms d = candAtoms c → c.1 ≤ d.1)) := by
  constructor
  · cases hpb : pickBest (hetCandidates s) with
    | none =>
      simp only [resolve, hpb]
      constructor
      · intro _
        exact ((pickBest_spec s).1).mp hpb
      · intro _
        exact ⟨_, rfl⟩
    | some c =>
      simp only [resolve, hpb]
      constructor
      · rintro ⟨e, he⟩
        exact Except.noConfusion he
      · intro h
        rw [h] at hpb
        simp [pickBest] at hpb
  · intro sel hsel
    cases hpb : pickBest (hetCandidates s) with
    | none => simp [resolve, hpb] at hsel
    | some c =>
      simp only [resolve, hpb, Except.ok.injEq] at hsel
      obtain ⟨hmem, hmax, htie⟩ := (pickBest_spec s).2 c hpb
      subst hsel
      exact ⟨rfl, c, rfl, rfl, hmem, hmax, htie⟩

/-- A three-residue structure whose two HETATM candidates have one and two
atoms respectively. -/
def wAutoStruct : PdbStructure :=
  ⟨[⟨"GLY", 1, "A", .standard, [wAtomO]⟩,
    ⟨"SM1", 2, "A", .hetatm, [wAtomN]⟩,
    ⟨"BIG", 3, "A", .hetatm, [wAtomN, wAtomO1]⟩]⟩

/-- The selection auto mode produces on that structure: the larger HETATM
residue (index 2). -/
def wAutoSel : LigandSelection := ⟨wAutoStruct, [2], [0]⟩

/-- C6 witness: on the test structure, auto mode resolves the HETATM
residue with the most atoms. -/
theorem resolve_auto_spec_witness :
    wAutoSel.pdb = wAutoStruct ∧
      ∃ c, pickBest (hetCandidates wAutoStruct) = some c ∧ wAutoSel.ligandRes = [c.1] ∧
        c ∈ hetCandidates wAutoStruct ∧
        (∀ d ∈ hetCandidates wAutoStruct, candAtoms d ≤ candAtoms c) ∧
        (∀ d ∈ hetCandidates wAutoStruct, candAtoms d = candAtoms c → c.1 ≤ d.1) :=
  (resolve_auto_spec wAutoStruct).2 wAutoSel rfl

theorem mem_selAtomIds {s : PdbStructure} {idxs : List ℕ} {p : ℕ × ℕ} :
    p ∈ selAtomIds s idxs ↔ p.1 ∈ idxs ∧ p.2 < residueAtomCount s p.1 := by
  unfold selAtomIds
  simp only [Finset.mem_biUnion, Finset.mem_image, Finset.mem_range, List.mem_toFinset]
  constructor
  · rintro ⟨i, hi, k, hk, rfl⟩
    exact ⟨hi, hk⟩
  · rintro ⟨h1, h2⟩
    exact ⟨p.1, h1, p.2, h2, rfl⟩

theorem mem_filterIdx {s : PdbStructure} {q : Residue → Bool} {i : ℕ} :
    i ∈ filterIdx s q ↔ ∃ r, s.residues.get? i = some r ∧ q r = true := by
  unfold filterIdx
  simp only [List.mem_map, List.mem_filter]
  constructor
  · rintro ⟨p, ⟨hp, hq⟩, rfl⟩
    rw [List.mem_enum_iff_get?] at hp
    exact ⟨p.2, hp, hq⟩
  · rintro ⟨r, hr, hq⟩
    exact ⟨(i, r), ⟨List.mem_enum_iff_get?.mpr hr, hq⟩, rfl⟩

theorem filterIdx_lt {s : PdbStructure} {q : Residue → Bool} :
    ∀ i ∈ filterIdx s q, i < s.residues.length := by
  intro i hi
  rw [mem_filterIdx] at hi
  obtain ⟨r, hr, -⟩ := hi
  obtain ⟨hlt, -⟩ := List.get?_eq_some.mp hr
  exact hlt

theorem selAtomIds_disjoint {s : PdbStructure} {a b : List ℕ}
    (h : ∀ i, i ∈ a → i ∈ b → False) :
    Disjoint (selAtomIds s a) (selAtomIds s b) := by
  rw [Finset.disjoint_left]
  intro p hpa hpb
  rw [mem_selAtomIds] at hpa hpb
  exact h p.1 hpa.1 hpb.1

theorem selAtomIds_subset_all {s : PdbStructure} {idxs : List ℕ}
    (h : ∀ i ∈ idxs, i < s.residues.length) :
    selAtomIds s idxs ⊆ allAtomIds s := by
  intro p hp
  rw [mem_selAtomIds] at hp
  unfold allAtomIds
  rw [mem_selAtomIds]
  exact ⟨List.mem_range.mpr (h p.1 hp.1), hp.2⟩

theorem mem_hetCandidates {s : PdbStructure} {c : ℕ × Residue}
    (h : c ∈ hetCandidates s) :
    s.residues.get? c.1 = some c.2 ∧ c.2.kind = ResKind.hetatm := by
  unfold hetCandidates at h
  rw [List.mem_filter] at h
  exact ⟨List.mem_enum_iff_get?.mp h.1, by simpa using h.2⟩

/-- C9: every selection produced by `resolve`, in any mode, partitions the
structure: the ligand and receptor atom sets are disjoint and their union
stays inside the structure's atoms. -/
theorem resolve_disjoint (s : PdbStructure) (m : LigandMode) :
    ∀ sel, resolve s m = Except.ok sel →
      sel.pdb = s ∧
      Disjoint (selAtomIds sel.pdb sel.ligandRes) (selAtomIds sel.pdb sel.receptorRes) ∧
      selAtomIds sel.pdb sel.ligandRes ∪ selAtomIds sel.pdb sel.receptorRes ⊆
        allAtomIds sel.pdb := by
  intro sel hsel
  cases m with
  | het resname chainOpt =>
    simp only [resolve] at hsel
    split at hsel
    · exact Except.noConfusion hsel
    · rw [Except.ok.injEq] at hsel
      subst hsel
      dsimp only
      refine ⟨rfl, selAtomIds_disjoint ?_, ?_⟩
      · intro i hi1 hi2
        rw [mem_filterIdx] at hi1 hi2
        obtain ⟨r1, hr1, hq1⟩ := hi1
        obtain ⟨r2, hr2, hq2⟩ := hi2
        rw [hr1, Option.some.injEq] at hr2
        subst hr2
        simp only [Bool.and_eq_true, beq_iff_eq] at hq1 hq2
        rw [hq1.1.1] at hq2
        exact ResKind.noConfusion hq2
      · exact Finset.union_subset
          (selAtomIds_subset_all filterIdx_lt)
          (selAtomIds_subset_all filterIdx_lt)
  | chain c =>
    simp only [resolve] at hsel
    split at hsel
    · exact Except.noConfusion hsel
    · rw [Except.ok.injEq] at hsel
      subst hsel
      dsimp only
      refine ⟨rfl, selAtomIds_disjoint ?_, ?_⟩
      · intro i hi1 hi2
        rw [mem_filterIdx] at hi1 hi2
        obtain ⟨r1, hr1, hq1⟩ := hi1
        obtain ⟨r2, hr2, hq2⟩ := hi2
        rw [hr1, Option.some.injEq] at hr2
        subst hr2
        rw [beq_iff_eq] at hq1
        rw [bne_iff_ne] at hq2
        exact hq2 hq1
      · exact Finset.union_subset
          (selAtomIds_subset_all filterIdx_lt)
          (selAtomIds_subset_all filterIdx_lt)
  | auto =>
    cases hpb : pickBest (hetCandidates s) with
    | none => simp [resolve, hpb] at hsel
    | some c =>
      simp only [resolve, hpb, Except.ok.injEq] at hsel
      subst hsel
      obtain ⟨hmem, -, -⟩ := (pickBest_spec s).2 c hpb
      obtain ⟨hget, hkind⟩ := mem_hetCandidates hmem
      dsimp only
      refine ⟨rfl, selAtomIds_disjoint ?_, ?_⟩
      · intro i hi1 hi2
        rw [List.mem_singleton] at hi1
        subst hi1
        rw [mem_filterIdx] at hi2
        obtain ⟨r2, hr2, hq2⟩ := hi2
        rw [hget, Option.some.injEq] at hr2
        subst hr2
        rw [beq_iff_eq] at hq2
        rw [hkind] at hq2
        exact ResKind.noConfusion hq2
      · refine Finset.union_subset (selAtomIds_subset_all ?_)
          (selAtomIds_subset_all filterIdx_lt)
        intro i hi
        rw [List.mem_singleton] at hi
        subst hi
        obtain ⟨hlt, -⟩ := List.get?_eq_some.mp hget
        exact hlt

/-- C9 witness: the auto-mode selection on the test structure is a
disjoint ligand/receptor partition inside the structure's atoms. -/
theorem resolve_disjoint_witness :
    wAutoSel.pdb = wAutoStruct ∧
      Disjoint (selAtomIds wAutoSel.pdb wAutoSel.ligandRes)
        (selAtomIds wAutoSel.pdb wAutoSel.receptorRes) ∧
      selAtomIds wAutoSel.pdb wAutoSel.ligandRes ∪
          selAtomIds wAutoSel.pdb wAutoSel.receptorRes ⊆
        allAtomIds wAutoSel.pdb :=
  resolve_disjoint wAutoStruct LigandMode.auto wAutoSel rfl

/-- C10: the frontend renders at most the first 500 interaction rows, at
most the first 300 signature items of a compare list, and `main` retains
only the first 500 interactions; entries beyond these limits are
omitted. -/
theorem render_limits :
    (∀ (α : Type) (rows : List α) (ai : Option ℕ),
      (renderInteractionsTable rows ai).map (fun p => p.2.1) = rows.take 500 ∧
      (renderInteractionsTable rows ai).length ≤ 500) ∧
    (∀ (items : List SigItem) (et : String) (sk : Option String), items ≠ [] →
      (renderCompareList items et sk).map Prod.fst = (items.take 300).map formatSig ∧
      (renderCompareList items et sk).length ≤ 300) ∧
    (∀ (α : Type) (l : List α), mainRetainInteractions l = l.take 500) := by
  refine ⟨?_, ?_, ?_⟩
  · intro α rows ai
    constructor
    · unfold renderInteractionsTable sliceJs
      rw [List.drop_zero, Nat.sub_zero, List.map_map]
      have h : ((fun p : ℕ × α × Bool => p.2.1) ∘
          (fun p : ℕ × α => (p.1, p.2, ai == some p.1))) = Prod.snd := rfl
      rw [h, List.enum_map_snd]
    · simp only [renderInteractionsTable, sliceJs, List.length_map, List.enum_length,
        List.length_take, List.drop_zero, Nat.sub_zero]
      omega
  · intro items et sk hne
    have hlen : ¬items.length = 0 := by
      simpa [List.length_eq_zero] using hne
    constructor
    · simp only [renderCompareList, if_neg hlen, sliceJs, List.drop_zero, Nat.sub_zero,
        List.map_map]
      rfl
    · simp only [renderCompareList, if_neg hlen, sliceJs, List.length_map,
        List.length_take, List.drop_zero, Nat.sub_zero]
      omega
  · intro α l
    unfold mainRetainInteractions sliceJs
    rw [List.drop_zero, Nat.sub_zero]

/-- C10 witness: on a 600-element row list and a 301-item signature list
the frontend renders exactly the 500- and 300-item prefixes. -/
theorem render_limits_witness :
    (renderInteractionsTable (List.range 600) none).map (fun p => p.2.1) =
        (List.range 600).take 500 ∧
      (renderInteractionsTable (List.range 600) none).length ≤ 500 ∧
      (renderCompareList (List.replicate 301 ⟨"t", "A", "SER", 1, "k"⟩) "empty" none).length ≤
        300 := by
  refine ⟨(render_limits.1 ℕ (List.range 600) none).1,
    (render_limits.1 ℕ (List.range 600) none).2,
    (render_limits.2.1 (List.replicate 301 ⟨"t", "A", "SER", 1, "k"⟩) "empty" none ?_).2⟩
  decide

/-- C7: `align` is a total function (the model of "never raises"); whenever
the shared C-alpha count of the chosen chain pair is below 3 it returns
aligned=false with reason "insufficient shared backbone atoms", and every
unaligned outcome carries that reason rather than an exception. -/
theorem align_fails_closed (solve : KabschSolver) (sRef sMov : PdbStructure)
    (cR cM : Option String) :
    ((align solve sRef sMov cR cM).1.shared_ca_atoms < 3 →
      (align solve sRef sMov cR cM).1.aligned = false ∧
      (align solve sRef sMov cR cM).1.reason = some "insufficient shared backbone atoms") ∧
    ((align solve sRef sMov cR cM).1.aligned = false →
      (align solve sRef sMov cR cM).1.reason = some "insufficient shared backbone atoms") := by
  unfold align
  cases chosenChainPair sRef sMov cR cM with
  | none => exact ⟨fun _ => ⟨rfl, rfl⟩, fun _ => rfl⟩
  | some p =>
    obtain ⟨c1, c2⟩ := p
    dsimp only
    split_ifs with h
    · exact ⟨fun _ => ⟨rfl, rfl⟩, fun _ => rfl⟩
    · exact ⟨fun hlt => absurd hlt h, fun hal => hal.elim⟩

/-- A trivial solver standing in for the Kabsch computation in witnesses:
the identity rotation and zero translation. -/
def solveId : KabschSolver := fun _ => (⟨⟨1, 0, 0⟩, ⟨0, 1, 0⟩, ⟨0, 0, 1⟩⟩, ⟨0, 0, 0⟩)

/-- C7 witness: aligning the CA-free test structure against itself fails
closed with the insufficient-backbone reason. -/
theorem align_fails_closed_witness :
    (align solveId wStruct wStruct none none).1.aligned = false ∧
    (align solveId wStruct wStruct none none).1.reason =
      some "insufficient shared backbone atoms" :=
  (align_fails_closed solveId wStruct wStruct none none).1 (by decide)

/-- C8: the compare pipeline detects interactions on the original
coordinates only — its interaction lists and signature sets are identical
with and without the align flag — and the emitted reference structure is
the unmodified input. -/
theorem detection_unaffected_by_align (solve : KabschSolver) (s1 s2 : PdbStructure)
    (m1 m2 : LigandMode) :
    ((compareComplexes solve s1 s2 m1 m2 true).map fun o =>
        (o.interactions1, o.interactions2, o.shared, o.pdb1)) =
      ((compareComplexes solve s1 s2 m1 m2 false).map fun o =>
        (o.interactions1, o.interactions2, o.shared, o.pdb1)) ∧
    (∀ (flag : Bool) (o : CompareOutcome),
      compareComplexes solve s1 s2 m1 m2 flag = Except.ok o →
      o.pdb1 = s1 ∧ ∃ sel1 sel2, resolve s1 m1 = Except.ok sel1 ∧
        resolve s2 m2 = Except.ok sel2 ∧
        o.interactions1 = detect sel1 ∧ o.interactions2 = detect sel2) := by
  constructor
  · unfold compareComplexes
    cases resolve s1 m1 with
    | error e => rfl
    | ok sel1 =>
      cases resolve s2 m2 with
      | error e => rfl
      | ok sel2 => rfl
  · intro flag o ho
    unfold compareComplexes at ho
    cases h1 : resolve s1 m1 with
    | error e =>
      rw [h1] at ho
      exact Except.noConfusion ho
    | ok sel1 =>
      rw [h1] at ho
      cases h2 : resolve s2 m2 with
      | error e =>
        rw [h2] at ho
        exact Except.noConfusion ho
      | ok sel2 =>
        rw [h2] at ho
        dsimp only at ho
        cases flag with
        | true =>
          rw [if_pos rfl] at ho
          rw [Except.ok.injEq] at ho
          subst ho
          exact ⟨rfl, sel1, sel2, rfl, rfl, rfl, rfl⟩
        | false =>
          rw [if_neg (by simp)] at ho
          rw [Except.ok.injEq] at ho
          subst ho
          exact ⟨rfl, sel1, sel2, rfl, rfl, rfl, rfl⟩

/-- The empty fallback outcome used to extract a concrete successful
outcome in the C8 witness. -/
def defaultOutcome : CompareOutcome :=
  { interactions1 := [], interactions2 := [], shared := ∅, only1 := ∅, only2 := ∅,
    alignment := none, pdb1 := ⟨[]⟩, pdb2 := ⟨[]⟩ }

/-- The outcome of comparing the auto-mode test structure with itself,
align flag set. -/
def wOutcome : CompareOutcome :=
  ((compareComplexes solveId wAutoStruct wAutoStruct
      LigandMode.auto LigandMode.auto true).toOption).getD defaultOutcome

/-- C8 witness: on the concrete compare call with alignment enabled, the
emitted reference equals the input and both interaction lists are the
detections on the original selections. -/
theorem detection_unaffected_by_align_witness :
    wOutcome.pdb1 = wAutoStruct ∧ ∃ sel1 sel2,
      resolve wAutoStruct LigandMode.auto = Except.ok sel1 ∧
      resolve wAutoStruct LigandMode.auto = Except.ok sel2 ∧
      wOutcome.interactions1 = detect sel1 ∧ wOutcome.interactions2 = detect sel2 :=
  (detection_unaffected_by_align solveId wAutoStruct wAutoStruct
    LigandMode.auto LigandMode.auto).2 true wOutcome rfl

end ProteinAnalyser
